import Mathlib

/-!
Verification development for the HROne e-commerce backend (src/main.py).

The source is a FastAPI application over MongoDB.  The shallow embedding below
represents the two collections as in-memory lists of documents.  BSON ObjectIds
are represented by their canonical (24 hex character, lowercase) string
renderings: two ObjectIds are equal iff their renderings are equal, and the
rendering of a stored id is exactly what `str(...)` produces in the source.
Floating point prices are modelled as exact rationals; the sums involved are
the same per-item folds on both the code side and the spec side.  Python
`str.lower()` is modelled characterwise with ASCII case folding.
-/

namespace HROne

/-- Python `str.lower()` (used by `to_lowercase` in src/main.py lines 44-50 and
67-71 and by the handlers), modelled characterwise with ASCII case folding. -/
def lowerStr (s : String) : String := String.mk (s.data.map Char.toLower)

/-- Hexadecimal-digit test for the characters of a BSON ObjectId string. -/
def isHexChar (c : Char) : Bool :=
  c.isDigit || ('a' ≤ c && c ≤ 'f') || ('A' ≤ c && c ≤ 'F')

/-- `bson.ObjectId` construction (src/main.py line 143): a 24-character hex
string yields an ObjectId, represented here by its canonical lowercase
rendering (which is also what `str(...)` returns on line 145); any other string
makes the constructor raise, modelled as `none`. -/
def objectId? (s : String) : Option String :=
  if s.length == 24 && s.data.all isHexChar then some (lowerStr s) else none

/-- A document of the `products` collection (`_id` plus the `ProductIn`
fields of src/main.py lines 38-42). -/
structure ProductDoc where
  id : String
  name : String
  description : Option String
  price : ℚ
  size : Option String
deriving DecidableEq

/-- `OrderItem` (src/main.py lines 59-61); `quantity` is validated `gt=0` at
the boundary. -/
structure OrderItem where
  product_id : String
  quantity : Nat
deriving DecidableEq

/-- `OrderIn` (src/main.py lines 63-65); `user_id` is validated non-empty at
the boundary and `items` carries no constraint of its own. -/
structure OrderIn where
  user_id : String
  items : List OrderItem
deriving DecidableEq

/-- `OrderIn.to_lowercase` (src/main.py lines 67-71). -/
def OrderIn.to_lowercase (o : OrderIn) : OrderIn :=
  { user_id := lowerStr o.user_id
    items := o.items.map fun it =>
      { product_id := lowerStr it.product_id, quantity := it.quantity } }

/-- A document of the `orders` collection as inserted on line 153: the
lowercased `user_id`, the normalized items, the computed total, and the
store-assigned `_id`. -/
structure OrderDoc where
  id : String
  user_id : String
  items : List OrderItem
  total : ℚ
deriving DecidableEq

/-- The database: both collections, plus a counter from which freshly assigned
ObjectIds are drawn. -/
structure AppState where
  products : List ProductDoc
  orders : List OrderDoc
  nextOid : Nat
deriving DecidableEq

/-- Failure modes of the order-creation handler: `invalidId` models the
exception raised by `ObjectId(...)` on a malformed id (uncaught in the source),
and `http` models a raised `HTTPException` with status code and detail. -/
inductive CreateOrderError where
  | invalidId : CreateOrderError
  | http : Nat → String → CreateOrderError
deriving DecidableEq

/-- One step of Python dict construction: bind key `k` to `v`, overwriting an
existing binding for `k`. -/
def dictInsert (m : List (String × ℚ)) (k : String) (v : ℚ) : List (String × ℚ) :=
  if m.any (fun kv => kv.1 == k) then
    m.map (fun kv => if kv.1 == k then (k, v) else kv)
  else m ++ [(k, v)]

/-- The Python dict comprehension `{str(p["_id"]): p["price"] for p in products}`
(src/main.py line 145), built left to right with later bindings overwriting
earlier ones. -/
def dictOf (l : List (String × ℚ)) : List (String × ℚ) :=
  l.foldl (fun m kv => dictInsert m kv.1 kv.2) []

/-- Python dict lookup `price_map[item.product_id]` (line 149).  The default is
never reached there: once the length guard on line 146 has passed, every item
key is bound in the map. -/
def dictGetD (m : List (String × ℚ)) (k : String) (v0 : ℚ) : ℚ :=
  match m.find? (fun kv => kv.1 == k) with
  | some kv => kv.2
  | none => v0

/-- The list comprehension `[ObjectId(item.product_id) for item in order.items]`
(line 143); a malformed id makes the whole comprehension raise. -/
def objectIdList? : List OrderItem → Option (List String)
  | [] => some []
  | it :: its =>
    match objectId? it.product_id, objectIdList? its with
    | some i, some is => some (i :: is)
    | _, _ => none

/-- The store-assigned ObjectId of a newly inserted document, represented by
its string rendering; distinct counter values give distinct ids. -/
def freshOid (n : Nat) : String := "oid" ++ Nat.repr n

/-- The `products` variable of create_order (src/main.py line 144): the single
`$in` batch lookup of the parsed ids, which returns the store documents whose
`_id` belongs to the requested list. -/
def fetchProducts (s : AppState) (product_ids : List String) : List ProductDoc :=
  s.products.filter (fun d => product_ids.contains d.id)

/-- The `price_map` variable of create_order (src/main.py line 145). -/
def priceMap (s : AppState) (product_ids : List String) : List (String × ℚ) :=
  dictOf ((fetchProducts s product_ids).map (fun d => (d.id, d.price)))

/-- The `total` variable of create_order (src/main.py line 149). -/
def orderTotal (price_map : List (String × ℚ)) (items : List OrderItem) : ℚ :=
  (items.map (fun it => dictGetD price_map it.product_id 0 * (it.quantity : ℚ))).sum

/-- The `doc` dict built and inserted by create_order (src/main.py lines
150-153): the lowercased user id, the normalized items, the computed total and
the store-assigned `_id`. -/
def newOrderDoc (s : AppState) (o' : OrderIn) (product_ids : List String) : OrderDoc :=
  { id := freshOid s.nextOid
    user_id := o'.user_id
    items := o'.items
    total := orderTotal (priceMap s product_ids) o'.items }

/-- The pricing-and-persistence stage of POST /orders (src/main.py lines
144-155), reached after every `product_id` of the lowercased request `o'` has
been parsed into `product_ids`: reject with HTTP 400 when the size of the
price map differs from the number of requested ids (lines 146-147), otherwise
insert the order document once (line 153) and return that same document. -/
def create_order_priced (s : AppState) (o' : OrderIn) (product_ids : List String) :
    Except CreateOrderError OrderDoc × AppState :=
  if (priceMap s product_ids).length ≠ product_ids.length then
    (Except.error (CreateOrderError.http 400 "One or more products not found"), s)
  else
    (Except.ok (newOrderDoc s o' product_ids),
     { s with orders := s.orders ++ [newOrderDoc s o' product_ids]
              nextOid := s.nextOid + 1 })

/-- POST /orders handler (src/main.py lines 136-155): lowercase the request
(line 141), parse every `product_id` as an ObjectId (line 143), then price and
persist.  The `_id` of the response is rendered as a string on line 154, which
is the identity in this model. -/
def create_order (s : AppState) (o : OrderIn) :
    Except CreateOrderError OrderDoc × AppState :=
  let o' := o.to_lowercase
  match objectIdList? o'.items with
  | none => (Except.error CreateOrderError.invalidId, s)
  | some product_ids => create_order_priced s o' product_ids

/-- Python truthiness of an `Optional[str]` query parameter as tested on
lines 116 and 118: `None` and the empty string are falsy. -/
def truthy : Option String → Bool
  | none => false
  | some s => !(s == "")

/-- Caseless character comparison, modelling the `"i"` option of `$regex`. -/
def charEqCI (a b : Char) : Bool := a.toLower == b.toLower

/-- The metacharacters of the PCRE language behind `$regex`.  A pattern that
contains none of them is matched purely literally by the engine; only in that
all-literal regime, plus the lone `.` wildcard, is the fragment modelled below
faithful to the engine's semantics. -/
def isRegexMeta (c : Char) : Bool :=
  c == '.' || c == '*' || c == '+' || c == '?' || c == '[' || c == ']' ||
  c == '(' || c == ')' || c == '\x7b' || c == '\x7d' || c == '|' ||
  c == '^' || c == '$' || c == '\\'

/-- Matching of the modelled regex fragment against the start of the text.
Only the fragment of PCRE consisting of literal characters plus the `.`
wildcard is modelled (characters compared caselessly for the `"i"` option):
every other metacharacter is compared as a literal here, which diverges from
the engine.  The semantics of this function is therefore relied on only for
patterns whose characters are all non-metacharacters (where the engine too
matches literally) or for the concrete `.`-pattern of the counterexample;
statements about other patterns never depend on which documents the filter
keeps. -/
def regexHere : List Char → List Char → Bool
  | [], _ => true
  | _ :: _, [] => false
  | p :: ps, c :: cs => (p == '.' || charEqCI p c) && regexHere ps cs

/-- Unanchored regex search, as `$regex` performs: the pattern may match
starting at any position of the text.  Same fragment scoping as regexHere:
quantifiers, classes, anchors and alternation are not modelled, and no theorem
relies on this function's value on a pattern using them. -/
def regexFind (pat : List Char) : List Char → Bool
  | [] => regexHere pat []
  | c :: cs => regexHere pat (c :: cs) || regexFind pat cs

/-- The `name` filter of GET /products (line 117):
`{"$regex": name, "$options": "i"}` applied to the stored name, under the
fragment scoping documented at regexHere. -/
def nameMatch (pat : String) (d : ProductDoc) : Bool :=
  regexFind pat.data d.name.data

/-- Ascending `_id` order on product documents (the `sort("_id", 1)` of
line 124), via the lexicographic order on the canonical renderings, which
agrees with ObjectId order on equal-length hex strings. -/
def pidLE (a b : ProductDoc) : Prop := a.id ≤ b.id

instance : DecidableRel pidLE :=
  fun a b => inferInstanceAs (Decidable (a.id ≤ b.id))

instance : IsTotal ProductDoc pidLE := ⟨fun a b => le_total a.id b.id⟩

instance : IsTrans ProductDoc pidLE := ⟨fun _ _ _ h₁ h₂ => le_trans h₁ h₂⟩

/-- Ascending `_id` order on order documents (the `sort("_id", 1)` of
line 170). -/
def oidLE (a b : OrderDoc) : Prop := a.id ≤ b.id

instance : DecidableRel oidLE :=
  fun a b => inferInstanceAs (Decidable (a.id ≤ b.id))

instance : IsTotal OrderDoc oidLE := ⟨fun a b => le_total a.id b.id⟩

instance : IsTrans OrderDoc oidLE := ⟨fun _ _ _ h₁ h₂ => le_trans h₁ h₂⟩

/-- The `query` dict of GET /products (src/main.py lines 115-119), as the
predicate a document must satisfy to match it: the name/size filters are only
installed when the corresponding parameter is truthy.  The final str rendering
of `_id` on lines 129-130 is the identity in this model. -/
def productQuery (name size : Option String) (d : ProductDoc) : Bool :=
  (!truthy name || nameMatch (name.getD "") d) &&
  (!truthy size || d.size == some (lowerStr (size.getD "")))

/-- The find-sort-skip-limit pipeline of GET /products (src/main.py lines
121-128); `to_list(length=limit)` caps at the same bound as `limit`. -/
def list_products (s : AppState) (name size : Option String) (limit offset : Nat) :
    List ProductDoc :=
  (((s.products.filter (productQuery name size)).insertionSort pidLE).drop offset).take limit

/-- GET /orders/{user_id} handler (src/main.py lines 160-179): find the orders
of the lowercased user, sort by `_id` ascending, skip `offset`, take at most
`limit`.  The str renderings on lines 176-178 are identities in this model. -/
def list_orders (s : AppState) (user_id : String) (limit offset : Nat) :
    List OrderDoc :=
  (((s.orders.filter (fun d => d.user_id == lowerStr user_id)).insertionSort oidLE).drop
      offset).take limit

/-- Specification-side order total, following the spec's words (section 8,
"total == Σ(price[product_id] * quantity)"): each item contributes the price
of the product it references (under normalized, case-insensitive matching)
times its quantity. -/
def spec_total (products : List ProductDoc) (items : List OrderItem) : ℚ :=
  (items.map (fun it =>
    (match products.find? (fun d => d.id == lowerStr it.product_id) with
     | some d => d.price
     | none => 0) * (it.quantity : ℚ))).sum

/-- Specification-side prefix test for the literal substring filter, following
the spec's words (section 6, "name (case-insensitive substring filter)"). -/
def litHere : List Char → List Char → Bool
  | [], _ => true
  | _ :: _, [] => false
  | p :: ps, c :: cs => charEqCI p c && litHere ps cs

/-- Specification-side case-insensitive literal substring containment. -/
def litSubstr (pat : List Char) : List Char → Bool
  | [] => litHere pat []
  | c :: cs => litHere pat (c :: cs) || litSubstr pat cs

instance {ε α : Type} [DecidableEq ε] [DecidableEq α] : DecidableEq (Except ε α) :=
  fun x y =>
    match x, y with
    | Except.error e, Except.error e' =>
      if h : e = e' then Decidable.isTrue (congrArg Except.error h)
      else Decidable.isFalse (fun hc => h (Except.error.inj hc))
    | Except.error _, Except.ok _ => Decidable.isFalse (fun hc => Except.noConfusion hc)
    | Except.ok _, Except.error _ => Decidable.isFalse (fun hc => Except.noConfusion hc)
    | Except.ok a, Except.ok b =>
      if h : a = b then Decidable.isTrue (congrArg Except.ok h)
      else Decidable.isFalse (fun hc => h (Except.ok.inj hc))

/-- Fixture: canonical rendering of the id of the first fixture product. -/
def pidA : String := "aaaaaaaaaaaaaaaaaaaaaaa1"

/-- Fixture: canonical rendering of the id of the second fixture product. -/
def pidB : String := "aaaaaaaaaaaaaaaaaaaaaaa2"

/-- Fixture product P1 with price 10.0. -/
def prodP1 : ProductDoc :=
  { id := pidA, name := "widget", description := none, price := 10, size := some "m" }

/-- Fixture product P2 with price 2.5. -/
def prodP2 : ProductDoc :=
  { id := pidB, name := "gadget", description := none, price := 2.5, size := none }

/-- Fixture store holding P1 and P2 and no orders. -/
def sEx : AppState := { products := [prodP1, prodP2], orders := [], nextOid := 0 }

/-- Fixture request: the spec's example order, with a mixed-case user id. -/
def oEx : OrderIn := { user_id := "Alice", items := [⟨pidA, 2⟩, ⟨pidB, 4⟩] }

/-- Fixture request with the same product id on two separate lines. -/
def oDup : OrderIn := { user_id := "bob", items := [⟨pidA, 1⟩, ⟨pidA, 1⟩] }

/-- Fixture product whose name is matched by the regex "a.c" but does not
contain "a.c" as a literal substring. -/
def prodABC : ProductDoc :=
  { id := "p1", name := "abc", description := none, price := 1, size := none }

/-- Fixture store for the name-filter claims. -/
def s8 : AppState := { products := [prodABC], orders := [], nextOid := 0 }

/-- Fixture store with fifteen products, for the pagination claim. -/
def s15 : AppState :=
  { products := (List.range 15).map (fun i =>
      { id := "p" ++ Nat.repr i, name := "n", description := none, price := 1, size := none })
    orders := []
    nextOid := 0 }

theorem char_toNat_ofNat {n : Nat} (h : n.isValidChar) : (Char.ofNat n).toNat = n := by
  unfold Char.ofNat
  rw [dif_pos h]
  rfl

theorem char_toLower_idem (c : Char) : c.toLower.toLower = c.toLower := by
  unfold Char.toLower
  by_cases h : c.toNat ≥ 65 ∧ c.toNat ≤ 90
  · rw [if_pos h]
    have hv : Nat.isValidChar (c.toNat + 32) := Or.inl (by omega)
    rw [char_toNat_ofNat hv, if_neg (by omega)]
  · rw [if_neg h, if_neg h]

theorem map_toLower_idem (l : List Char) :
    (l.map Char.toLower).map Char.toLower = l.map Char.toLower := by
  induction l with
  | nil => rfl
  | cons c cs ih => simp only [List.map_cons, ih, char_toLower_idem]

theorem lowerStr_idem (s : String) : lowerStr (lowerStr s) = lowerStr s :=
  congrArg String.mk (map_toLower_idem s.data)

theorem objectId_lower_eq {x : String} (h : (objectId? (lowerStr x)).isSome = true) :
    objectId? (lowerStr x) = some (lowerStr x) := by
  unfold objectId? at h ⊢
  by_cases hc : ((lowerStr x).length == 24 && (lowerStr x).data.all isHexChar) = true
  · rw [if_pos hc, lowerStr_idem]
  · rw [if_neg hc] at h
    simp at h

theorem objectIdList_eq_map {l : List OrderItem}
    (h : ∀ it ∈ l, objectId? it.product_id = some it.product_id) :
    objectIdList? l = some (l.map (fun it => it.product_id)) := by
  induction l with
  | nil => rfl
  | cons it its ih =>
    have h1 := h it (List.mem_cons_self it its)
    have h2 := ih (fun x hx => h x (List.mem_cons_of_mem it hx))
    simp [objectIdList?, h1, h2]

theorem to_lowercase_items_pid (o : OrderIn) :
    o.to_lowercase.items.map (fun it => it.product_id) =
      o.items.map (fun it => lowerStr it.product_id) := by
  simp [OrderIn.to_lowercase, List.map_map, Function.comp]

theorem parse_lowered (o : OrderIn)
    (h : ∀ it ∈ o.items, (objectId? (lowerStr it.product_id)).isSome = true) :
    objectIdList? o.to_lowercase.items =
      some (o.items.map (fun it => lowerStr it.product_id)) := by
  rw [objectIdList_eq_map, to_lowercase_items_pid]
  intro it' hit'
  simp only [OrderIn.to_lowercase, List.mem_map] at hit'
  obtain ⟨it, hit, rfl⟩ := hit'
  exact objectId_lower_eq (h it hit)

theorem dictInsert_of_not_mem {m : List (String × ℚ)} {k : String} {v : ℚ}
    (h : m.any (fun kv => kv.1 == k) = false) :
    dictInsert m k v = m ++ [(k, v)] := by
  simp only [dictInsert, h, Bool.false_eq_true, if_false]

theorem dictOf_go (l : List (String × ℚ)) :
    ∀ acc : List (String × ℚ), ((acc ++ l).map Prod.fst).Nodup →
      l.foldl (fun m kv => dictInsert m kv.1 kv.2) acc = acc ++ l := by
  induction l with
  | nil => intro acc _; simp
  | cons kv t ih =>
    intro acc h
    have hdisj : (acc.map Prod.fst).Disjoint ((kv :: t).map Prod.fst) := by
      rw [List.map_append] at h
      exact (List.nodup_append.mp h).2.2
    have hk : acc.any (fun kv' => kv'.1 == kv.1) = false := by
      by_contra hc
      rw [Bool.not_eq_false, List.any_eq_true] at hc
      obtain ⟨kv', hkv', he⟩ := hc
      have he' : kv'.1 = kv.1 := eq_of_beq he
      exact hdisj (List.mem_map_of_mem Prod.fst hkv')
        (he' ▸ List.mem_map_of_mem Prod.fst (List.mem_cons_self kv t))
    have hstep : dictInsert acc kv.1 kv.2 = acc ++ [kv] := by
      rw [dictInsert_of_not_mem hk]
    rw [List.foldl_cons, hstep, ih (acc ++ [kv]) (by simpa using h)]
    simp

theorem dictOf_eq_self {l : List (String × ℚ)} (h : (l.map Prod.fst).Nodup) :
    dictOf l = l := by
  have := dictOf_go l [] (by simpa using h)
  simpa [dictOf] using this

theorem find_key_eq {α : Type} (key : α → String) {l : List α}
    (hnd : (l.map key).Nodup) {d : α} (hd : d ∈ l) :
    l.find? (fun a => key a == key d) = some d := by
  induction l with
  | nil => cases hd
  | cons a t ih =>
    have hnd' : key a ∉ t.map key ∧ (t.map key).Nodup := by
      rw [List.map_cons, List.nodup_cons] at hnd
      exact hnd
    rcases List.mem_cons.mp hd with heq | hdt
    · subst heq
      simp [List.find?]
    · have hne : (key a == key d) = false := by
        rw [Bool.eq_false_iff]
        intro he
        have he' : key a = key d := eq_of_beq he
        exact hnd'.1 (he' ▸ List.mem_map_of_mem key hdt)
      simp only [List.find?, hne]
      exact ih hnd'.2 hdt

theorem mem_fetched_ids {prods : List ProductDoc} {req : List String} {x : String} :
    x ∈ (prods.filter (fun d => req.contains d.id)).map (fun d => d.id) ↔
      (∃ d ∈ prods, d.id = x) ∧ x ∈ req := by
  simp only [List.mem_map, List.mem_filter, List.contains, List.elem_iff]
  constructor
  · rintro ⟨d, ⟨hd, hmem⟩, rfl⟩
    exact ⟨⟨d, hd, rfl⟩, hmem⟩
  · rintro ⟨⟨d, hd, rfl⟩, hmem⟩
    exact ⟨d, ⟨hd, hmem⟩, rfl⟩

theorem fetched_ids_nodup {prods : List ProductDoc} (req : List String)
    (hnds : (prods.map (fun d => d.id)).Nodup) :
    ((prods.filter (fun d => req.contains d.id)).map (fun d => d.id)).Nodup :=
  List.Nodup.sublist (List.Sublist.map _ (List.filter_sublist prods)) hnds

theorem fetched_length_eq {prods : List ProductDoc} {req : List String}
    (hnds : (prods.map (fun d => d.id)).Nodup) (hndr : req.Nodup)
    (hall : ∀ x ∈ req, ∃ d ∈ prods, d.id = x) :
    (prods.filter (fun d => req.contains d.id)).length = req.length := by
  have hperm : List.Perm ((prods.filter (fun d => req.contains d.id)).map (fun d => d.id)) req := by
    rw [List.perm_ext_iff_of_nodup (fetched_ids_nodup req hnds) hndr]
    intro x
    rw [mem_fetched_ids]
    exact ⟨fun h => h.2, fun h => ⟨hall x h, h⟩⟩
  have := hperm.length_eq
  simpa using this

theorem fetched_length_eq_iff {prods : List ProductDoc} {req : List String}
    (hnds : (prods.map (fun d => d.id)).Nodup) :
    (prods.filter (fun d => req.contains d.id)).length = req.length ↔
      (req.Nodup ∧ ∀ x ∈ req, ∃ d ∈ prods, d.id = x) := by
  constructor
  · intro h
    have hlen : ((prods.filter (fun d => req.contains d.id)).map (fun d => d.id)).length
        = req.length := by simpa using h
    have hnf := fetched_ids_nodup req hnds
    have hss : ∀ x ∈ (prods.filter (fun d => req.contains d.id)).map (fun d => d.id),
        x ∈ req := fun x hx => (mem_fetched_ids.mp hx).2
    have hsubF : ((prods.filter (fun d => req.contains d.id)).map (fun d => d.id)).toFinset
        ⊆ req.toFinset := by
      intro x hx
      rw [List.mem_toFinset] at hx ⊢
      exact hss x hx
    have hcf : ((prods.filter (fun d => req.contains d.id)).map (fun d => d.id)).toFinset.card
        = req.length := by rw [List.toFinset_card_of_nodup hnf, hlen]
    have hdle : req.length ≤ req.dedup.length := by
      calc req.length
          = ((prods.filter (fun d => req.contains d.id)).map (fun d => d.id)).toFinset.card :=
            hcf.symm
        _ ≤ req.toFinset.card := Finset.card_le_card hsubF
        _ = req.dedup.length := List.card_toFinset req
    have hdl : req.dedup.length = req.length :=
      Nat.le_antisymm (List.Sublist.length_le (List.dedup_sublist req)) hdle
    have hndr : req.Nodup :=
      List.dedup_eq_self.mp (List.Sublist.eq_of_length (List.dedup_sublist req) hdl)
    refine ⟨hndr, fun x hx => ?_⟩
    have hFeq : ((prods.filter (fun d => req.contains d.id)).map (fun d => d.id)).toFinset
        = req.toFinset := by
      apply Finset.eq_of_subset_of_card_le hsubF
      rw [hcf, List.card_toFinset, hdl]
    have : x ∈ (prods.filter (fun d => req.contains d.id)).map (fun d => d.id) := by
      rw [← List.mem_toFinset, hFeq, List.mem_toFinset]
      exact hx
    exact (mem_fetched_ids.mp this).1
  · intro h
    exact fetched_length_eq hnds h.1 h.2

theorem create_order_eq_match (s : AppState) (o : OrderIn) :
    create_order s o =
      match objectIdList? o.to_lowercase.items with
      | none => (Except.error CreateOrderError.invalidId, s)
      | some product_ids => create_order_priced s o.to_lowercase product_ids := rfl

theorem create_order_parsed {s : AppState} {o : OrderIn} {req : List String}
    (hp : objectIdList? o.to_lowercase.items = some req) :
    create_order s o = create_order_priced s o.to_lowercase req := by
  rw [create_order_eq_match, hp]

theorem create_order_priced_err {s : AppState} {o' : OrderIn} {req : List String}
    (h : (priceMap s req).length ≠ req.length) :
    create_order_priced s o' req =
      (Except.error (CreateOrderError.http 400 "One or more products not found"), s) := by
  unfold create_order_priced
  rw [if_pos h]

theorem create_order_priced_ok {s : AppState} {o' : OrderIn} {req : List String}
    (h : (priceMap s req).length = req.length) :
    create_order_priced s o' req =
      (Except.ok (newOrderDoc s o' req),
       { s with orders := s.orders ++ [newOrderDoc s o' req]
                nextOid := s.nextOid + 1 }) := by
  unfold create_order_priced
  rw [if_neg (by omega)]

theorem priceMap_keys_nodup {s : AppState} {req : List String}
    (hnds : (s.products.map (fun d => d.id)).Nodup) :
    ((priceMap s req).map Prod.fst).Nodup := by
  unfold priceMap fetchProducts
  rw [dictOf_eq_self]
  all_goals
    rw [show ((s.products.filter (fun d => req.contains d.id)).map
        (fun d => (d.id, d.price))).map Prod.fst
      = (s.products.filter (fun d => req.contains d.id)).map (fun d => d.id) by
        rw [List.map_map]; rfl]
  · exact fetched_ids_nodup req hnds
  · exact fetched_ids_nodup req hnds

theorem priceMap_eq_pairs {s : AppState} {req : List String}
    (hnds : (s.products.map (fun d => d.id)).Nodup) :
    priceMap s req = (fetchProducts s req).map (fun d => (d.id, d.price)) := by
  unfold priceMap
  apply dictOf_eq_self
  rw [show ((fetchProducts s req).map (fun d => (d.id, d.price))).map Prod.fst
      = (fetchProducts s req).map (fun d => d.id) by rw [List.map_map]; rfl]
  exact fetched_ids_nodup req hnds

theorem priceMap_length {s : AppState} {req : List String}
    (hnds : (s.products.map (fun d => d.id)).Nodup) :
    (priceMap s req).length = (fetchProducts s req).length := by
  rw [priceMap_eq_pairs hnds, List.length_map]

theorem create_order_ok_state {s : AppState} {o : OrderIn} {d : OrderDoc}
    (hok : (create_order s o).1 = Except.ok d) :
    (create_order s o).2 =
      { products := s.products, orders := s.orders ++ [d], nextOid := s.nextOid + 1 } ∧
    d.id = freshOid s.nextOid ∧ d.user_id = lowerStr o.user_id ∧
    d.items = o.to_lowercase.items := by
  rw [create_order_eq_match] at hok ⊢
  cases hp : objectIdList? o.to_lowercase.items with
  | none => rw [hp] at hok; exact absurd hok (by simp)
  | some req =>
    rw [hp] at hok
    have hok' : (create_order_priced s o.to_lowercase req).1 = Except.ok d := hok
    show (create_order_priced s o.to_lowercase req).2 = _ ∧ _
    by_cases hg : (priceMap s req).length = req.length
    · rw [create_order_priced_ok hg] at hok' ⊢
      have hd : newOrderDoc s o.to_lowercase req = d := Except.ok.inj hok'
      subst hd
      exact ⟨rfl, rfl, rfl, rfl⟩
    · rw [create_order_priced_err hg] at hok'
      exact absurd hok' (by simp)

theorem regexHere_eq_litHere {pat : List Char} (hdot : '.' ∉ pat) :
    ∀ text : List Char, regexHere pat text = litHere pat text := by
  induction pat with
  | nil => intro text; rfl
  | cons p ps ih =>
    intro text
    have hp : (p == '.') = false := by
      rw [beq_eq_false_iff_ne]
      intro he
      exact hdot (he ▸ List.mem_cons_self p ps)
    cases text with
    | nil => rfl
    | cons c cs =>
      have hps : '.' ∉ ps := fun hm => hdot (List.mem_cons_of_mem p hm)
      simp only [regexHere, litHere, hp, Bool.false_or, ih hps]

theorem regexFind_eq_litSubstr {pat : List Char} (hdot : '.' ∉ pat) :
    ∀ text : List Char, regexFind pat text = litSubstr pat text := by
  intro text
  induction text with
  | nil => simp only [regexFind, litSubstr, regexHere_eq_litHere hdot]
  | cons c cs ih => simp only [regexFind, litSubstr, regexHere_eq_litHere hdot, ih]

theorem sortedFiltered_nodup {s : AppState} (name size : Option String)
    (hnd : (s.products.map (fun d => d.id)).Nodup) :
    ((s.products.filter (productQuery name size)).insertionSort pidLE).Nodup := by
  rw [(List.perm_insertionSort pidLE _).nodup_iff]
  exact List.Nodup.filter _ (List.Nodup.of_map _ hnd)

theorem take_drop_disjoint {α : Type} [DecidableEq α] {l : List α} (hnd : l.Nodup)
    (L o : Nat) :
    ((l.drop o).take L).inter ((l.drop (o + L)).take L) = [] := by
  rw [List.eq_nil_iff_forall_not_mem]
  intro x hx
  have hx' : x ∈ ((l.drop o).take L).filter
      (fun a => List.elem a ((l.drop (o + L)).take L)) := hx
  rw [List.mem_filter, List.elem_iff] at hx'
  obtain ⟨h1, h2⟩ := hx'
  have hm : (l.drop o).Nodup := List.Nodup.sublist (List.drop_sublist o l) hnd
  have h2' : x ∈ (l.drop o).drop L := by
    rw [List.drop_drop]
    exact (List.take_sublist L _).subset h2
  have hsplit : (l.drop o).take L ++ (l.drop o).drop L = l.drop o := List.take_append_drop L _
  have hmm : ((l.drop o).take L ++ (l.drop o).drop L).Nodup := by rw [hsplit]; exact hm
  have hdisj : ((l.drop o).take L).Disjoint ((l.drop o).drop L) :=
    (List.nodup_append.mp hmm).2.2
  exact hdisj h1 h2'

theorem create_order_err_state {s : AppState} {o : OrderIn} {e : CreateOrderError}
    (he : (create_order s o).1 = Except.error e) : (create_order s o).2 = s := by
  rw [create_order_eq_match] at he ⊢
  cases hp : objectIdList? o.to_lowercase.items with
  | none => rfl
  | some req =>
    rw [hp] at he
    have he' : (create_order_priced s o.to_lowercase req).1 = Except.error e := he
    show (create_order_priced s o.to_lowercase req).2 = s
    by_cases hg : (priceMap s req).length = req.length
    · rw [create_order_priced_ok hg] at he'
      exact absurd he' (by simp)
    · rw [create_order_priced_err hg]

/-- C4: order creation is atomic with respect to the order store.  For every
request, the products collection is untouched, and the orders collection gains
exactly the returned document when the call succeeds and nothing at all when
it fails (the HTTP 400 referential failure included): the single insert of
line 153 happens only after the validation guard, and no update follows it. -/
theorem C4_order_creation_atomic (s : AppState) (o : OrderIn) :
    (create_order s o).2.products = s.products ∧
    (create_order s o).2.orders = s.orders ++
      (match (create_order s o).1 with
       | Except.ok d => [d]
       | Except.error _ => []) := by
  cases hr : (create_order s o).1 with
  | ok d =>
    obtain ⟨hst, -, -, -⟩ := create_order_ok_state hr
    rw [hst]
    exact ⟨rfl, rfl⟩
  | error e =>
    rw [create_order_err_state hr]
    exact ⟨rfl, (List.append_nil s.orders).symm⟩

/-- C5 counterexample: an order whose items array is empty is not rejected by
create_order; it succeeds with total 0 and the order is persisted, refuting
the claim that an empty items array draws a validation error and nothing is
stored (the `items` field of OrderIn, src/main.py line 65, carries no
non-empty constraint). -/
theorem C5_counterexample_empty_items :
    (create_order sEx { user_id := "bob", items := [] }).1 =
      Except.ok { id := "oid0", user_id := "bob", items := [], total := 0 } ∧
    (create_order sEx { user_id := "bob", items := [] }).2.orders =
      [{ id := "oid0", user_id := "bob", items := [], total := 0 }] := by
  exact ⟨rfl, rfl⟩

/-- C5 amended: an order-creation request with an empty items array is
accepted for every store and every user id: create_order succeeds, the
computed total is 0, and the order document (with no items) is persisted. -/
theorem C5_amended_empty_items_accepted (s : AppState) (u : String) :
    create_order s { user_id := u, items := [] } =
      (Except.ok { id := freshOid s.nextOid, user_id := lowerStr u, items := [], total := 0 },
       { s with
           orders := s.orders ++
             [{ id := freshOid s.nextOid, user_id := lowerStr u, items := [], total := 0 }]
           nextOid := s.nextOid + 1 }) := by
  have hp : objectIdList? ({ user_id := u, items := [] } : OrderIn).to_lowercase.items
      = some [] := rfl
  rw [create_order_parsed hp]
  have hfe : fetchProducts s [] = [] := by
    unfold fetchProducts
    rw [List.filter_eq_nil_iff]
    intro d _ hc
    simp [List.contains] at hc
  have hpm : priceMap s [] = [] := by
    unfold priceMap
    rw [hfe]
    rfl
  rw [create_order_priced_ok (by rw [hpm]; rfl)]
  unfold newOrderDoc orderTotal
  rw [hpm]
  rfl

/-- C10: an empty-string `name` or `size` query parameter behaves exactly like
an omitted parameter, because the filters of lines 116-119 are installed only
when the parameter value is truthy. -/
theorem C10_empty_string_params_ignored (s : AppState) (limit offset : Nat) :
    (∀ size, list_products s (some "") size limit offset =
        list_products s none size limit offset) ∧
    (∀ name, list_products s name (some "") limit offset =
        list_products s name none limit offset) :=
  ⟨fun _ => rfl, fun _ => rfl⟩

/-- C2 at the failing input: the code rejects an order whose two items carry
the same (existing) product id with HTTP 400 "One or more products not found",
although the spec-side total of the two lines is 2 * price(P1) = 20; the guard
of line 146 compares the number of distinct resolved products with the number
of items, so duplicate ids are not treated independently but invalidate the
order. -/
theorem C2_code_rejects_duplicate_items :
    (create_order sEx oDup).1 =
      Except.error (CreateOrderError.http 400 "One or more products not found") ∧
    spec_total sEx.products oDup.items = 20 := by
  refine ⟨rfl, ?_⟩
  have hlow : lowerStr pidA = pidA := by decide
  simp [spec_total, sEx, oDup, prodP1, prodP2, hlow, List.find?]
  norm_num

/-- C9: for every successful create_order call the response body is exactly
the persisted document: the orders collection gains precisely the returned
record, whose id is the store-assigned one (rendered as a string, the identity
in this model), whose user_id is the normalized request user and whose items
are the normalized request items. -/
theorem C9_response_is_persisted_doc {s : AppState} {o : OrderIn} {d : OrderDoc}
    (hok : (create_order s o).1 = Except.ok d) :
    (create_order s o).2.orders = s.orders ++ [d] ∧
    d.id = freshOid s.nextOid ∧
    d.user_id = lowerStr o.user_id ∧
    d.items = o.to_lowercase.items := by
  obtain ⟨hst, hid, hu, hi⟩ := create_order_ok_state hok
  exact ⟨by rw [hst], hid, hu, hi⟩

/-- C6: user identifiers are matched case-insensitively via lowercase
normalization: an order created from request `o` is among the results of
listing orders for any casing variant `v` of the same user id (with the page
covering the store: offset 0 and limit the collection size). -/
theorem C6_user_matching_case_insensitive {s : AppState} {o : OrderIn}
    {v : String} {d : OrderDoc}
    (hok : (create_order s o).1 = Except.ok d)
    (hv : lowerStr v = lowerStr o.user_id) :
    d ∈ list_orders (create_order s o).2 v (create_order s o).2.orders.length 0 := by
  obtain ⟨hst, -, hu, -⟩ := create_order_ok_state hok
  rw [hst]
  unfold list_orders
  dsimp only
  rw [List.drop_zero]
  have hlen : (((s.orders ++ [d]).filter
      (fun x => x.user_id == lowerStr v)).insertionSort oidLE).length
      ≤ (s.orders ++ [d]).length := by
    rw [List.length_insertionSort]
    exact List.length_filter_le _ _
  rw [List.take_of_length_le hlen, List.mem_insertionSort, List.mem_filter]
  refine ⟨List.mem_append_right _ (List.mem_cons_self d []), ?_⟩
  rw [hu, hv]
  simp

/-- C1: for every order whose items all reference products existing in the
store (after lowercase normalization) and whose normalized product ids are
pairwise distinct, create_order succeeds and the total of the returned (and
persisted) order is the spec-side sum over the items of the referenced
product's price times the item quantity. -/
theorem C1_valid_order_total {s : AppState} {o : OrderIn}
    (hcanon : ∀ d ∈ s.products, objectId? d.id = some d.id)
    (hnd : (s.products.map (fun d => d.id)).Nodup)
    (hres : ∀ it ∈ o.items, ∃ dd ∈ s.products, dd.id = lowerStr it.product_id)
    (hdist : (o.items.map (fun it => lowerStr it.product_id)).Nodup) :
    ∃ d st, create_order s o = (Except.ok d, st) ∧
      d.total = spec_total s.products o.items := by
  have hparse : ∀ it ∈ o.items, (objectId? (lowerStr it.product_id)).isSome = true := by
    intro it hit
    obtain ⟨dd, hdd, hid⟩ := hres it hit
    rw [← hid, hcanon dd hdd]
    rfl
  have hp := parse_lowered o hparse
  have hall : ∀ x ∈ o.items.map (fun it => lowerStr it.product_id),
      ∃ dd ∈ s.products, dd.id = x := by
    intro x hx
    obtain ⟨it, hit, rfl⟩ := List.mem_map.mp hx
    exact hres it hit
  have hlen : (priceMap s (o.items.map (fun it => lowerStr it.product_id))).length
      = (o.items.map (fun it => lowerStr it.product_id)).length := by
    rw [priceMap_length hnd]
    unfold fetchProducts
    exact fetched_length_eq hnd hdist hall
  rw [create_order_parsed hp, create_order_priced_ok hlen]
  refine ⟨_, _, rfl, ?_⟩
  show orderTotal (priceMap s (o.items.map fun it => lowerStr it.product_id))
      o.to_lowercase.items = spec_total s.products o.items
  unfold orderTotal spec_total
  rw [show o.to_lowercase.items.map
        (fun it => dictGetD (priceMap s (o.items.map fun it => lowerStr it.product_id))
          it.product_id 0 * (it.quantity : ℚ))
      = o.items.map
        (fun it => dictGetD (priceMap s (o.items.map fun it => lowerStr it.product_id))
          (lowerStr it.product_id) 0 * (it.quantity : ℚ)) by
    unfold OrderIn.to_lowercase
    rw [List.map_map]
    rfl]
  congr 1
  apply List.map_congr_left
  intro it hit
  obtain ⟨dd, hdd, hid⟩ := hres it hit
  have hmemf : dd ∈ fetchProducts s (o.items.map fun it => lowerStr it.product_id) := by
    unfold fetchProducts
    rw [List.mem_filter]
    refine ⟨hdd, ?_⟩
    show List.elem dd.id (o.items.map fun it => lowerStr it.product_id) = true
    rw [List.elem_iff, hid]
    exact List.mem_map_of_mem _ hit
  have hpairs := @priceMap_eq_pairs s (o.items.map fun it => lowerStr it.product_id) hnd
  have hpairsNodup : (((fetchProducts s
      (o.items.map fun it => lowerStr it.product_id)).map
        (fun d => (d.id, d.price))).map Prod.fst).Nodup := by
    rw [show ((fetchProducts s (o.items.map fun it => lowerStr it.product_id)).map
        (fun d => (d.id, d.price))).map Prod.fst
      = (fetchProducts s (o.items.map fun it => lowerStr it.product_id)).map
          (fun d => d.id) by rw [List.map_map]; rfl]
    exact fetched_ids_nodup _ hnd
  have hfind1 : ((fetchProducts s (o.items.map fun it => lowerStr it.product_id)).map
      (fun d => (d.id, d.price))).find? (fun kv => kv.1 == dd.id)
      = some (dd.id, dd.price) :=
    find_key_eq Prod.fst hpairsNodup (List.mem_map_of_mem _ hmemf)
  have hfind2 : s.products.find? (fun a => a.id == dd.id) = some dd :=
    find_key_eq (fun d => d.id) hnd hdd
  rw [← hid]
  unfold dictGetD
  rw [hpairs, hfind1, hfind2]

/-- C3 counterexample: the claim's "fails iff some product id is unresolvable,
with exact message beginning in lowercase" is refuted: for the duplicate-item
request every product id resolves in the store, yet create_order fails, and
the actual detail string is "One or more products not found" (capital O), not
"one or more products not found". -/
theorem C3_counterexample_duplicates_fail :
    (∀ it ∈ oDup.items, ∃ dd ∈ sEx.products, dd.id = lowerStr it.product_id) ∧
    (create_order sEx oDup).1 =
      Except.error (CreateOrderError.http 400 "One or more products not found") ∧
    (create_order sEx oDup).1 ≠
      Except.error (CreateOrderError.http 400 "one or more products not found") := by
  refine ⟨by decide, rfl, ?_⟩
  · intro hc
    have := (Except.error.inj hc)
    have h2 := (CreateOrderError.http.inj this).2
    exact absurd h2 (by decide)

/-- C3 amended: under the store invariants (unique, canonically rendered ids)
and for requests whose normalized product ids all parse as ObjectIds,
create_order fails with status 400 and the exact detail
"One or more products not found" if and only if some item's normalized product
id resolves to no stored product OR the normalized product ids of the items
are not pairwise distinct; the guard compares the number of distinct resolved
ids with the number of items, so duplicates also trigger the failure. -/
theorem C3_amended_400_characterization {s : AppState} {o : OrderIn}
    (hnd : (s.products.map (fun d => d.id)).Nodup)
    (hparse : ∀ it ∈ o.items, (objectId? (lowerStr it.product_id)).isSome = true) :
    (create_order s o).1 =
        Except.error (CreateOrderError.http 400 "One or more products not found")
      ↔ ((∃ it ∈ o.items, ∀ dd ∈ s.products, dd.id ≠ lowerStr it.product_id)
          ∨ ¬ (o.items.map (fun it => lowerStr it.product_id)).Nodup) := by
  have hp := parse_lowered o hparse
  rw [create_order_parsed hp]
  by_cases hg : (priceMap s (o.items.map fun it => lowerStr it.product_id)).length
      = (o.items.map fun it => lowerStr it.product_id).length
  · rw [create_order_priced_ok hg]
    have hfg : (s.products.filter (fun d =>
        (o.items.map fun it => lowerStr it.product_id).contains d.id)).length
        = (o.items.map fun it => lowerStr it.product_id).length := by
      have hg' := hg
      rw [priceMap_length hnd] at hg'
      exact hg'
    have hchar := (fetched_length_eq_iff hnd).mp hfg
    constructor
    · intro habs
      exact absurd habs (by simp)
    · intro hr
      exfalso
      rcases hr with ⟨it, hit, hno⟩ | hnodup
      · obtain ⟨dd, hdd, hid⟩ := hchar.2 (lowerStr it.product_id)
          (List.mem_map_of_mem _ hit)
        exact hno dd hdd hid
      · exact hnodup (by simpa using hchar.1)
  · rw [create_order_priced_err hg]
    constructor
    · intro _
      by_contra hc
      push_neg at hc
      obtain ⟨h1, h2⟩ := hc
      apply hg
      rw [priceMap_length hnd]
      unfold fetchProducts
      apply (fetched_length_eq_iff hnd).mpr
      refine ⟨by simpa using h2, ?_⟩
      intro x hx
      obtain ⟨it, hit, rfl⟩ := List.mem_map.mp hx
      exact h1 it hit
    · intro _
      rfl

theorem litSubstr_nil (text : List Char) : litSubstr [] text = true := by
  cases text with
  | nil => rfl
  | cons c cs => simp [litSubstr, litHere]

/-- C7: pagination of GET /products.  For every store with distinct ids and
every filter: each page holds at most `limit` records, pages are sorted by
ascending identifier, a page is disjoint from the next page (offset advanced
by limit); and when the filtered dataset has 15 records, the page limit=10,
offset=10 is exactly the last 5 records of the sorted dataset and does not
overlap the page limit=10, offset=0. -/
theorem C7_products_pagination (s : AppState) (name size : Option String)
    (hnd : (s.products.map (fun d => d.id)).Nodup) :
    (∀ limit offset,
      (list_products s name size limit offset).length ≤ limit ∧
      List.Sorted pidLE (list_products s name size limit offset) ∧
      (list_products s name size limit offset).inter
        (list_products s name size limit (offset + limit)) = []) ∧
    ((s.products.filter (productQuery name size)).length = 15 →
      (list_products s name size 10 10).length = 5 ∧
      list_products s name size 10 10 =
        ((s.products.filter (productQuery name size)).insertionSort pidLE).drop 10 ∧
      (list_products s name size 10 0).inter (list_products s name size 10 10) = []) := by
  have hsnd := sortedFiltered_nodup name size hnd
  constructor
  · intro limit offset
    refine ⟨?_, ?_, ?_⟩
    · unfold list_products
      rw [List.length_take]
      exact min_le_left _ _
    · unfold list_products
      exact List.Pairwise.sublist
        ((List.take_sublist _ _).trans (List.drop_sublist _ _))
        (List.sorted_insertionSort pidLE _)
    · unfold list_products
      exact take_drop_disjoint hsnd limit offset
  · intro h15
    have hlen : ((s.products.filter (productQuery name size)).insertionSort pidLE).length
        = 15 := by
      rw [List.length_insertionSort]
      exact h15
    have hdlen : (((s.products.filter (productQuery name size)).insertionSort pidLE).drop
        10).length = 5 := by
      rw [List.length_drop, hlen]
    refine ⟨?_, ?_, ?_⟩
    · unfold list_products
      rw [List.length_take, hdlen]
      decide
    · unfold list_products
      exact List.take_of_length_le (by rw [hdlen]; decide)
    · unfold list_products
      have hd := take_drop_disjoint hsnd 10 0
      simpa using hd

/-- C8 counterexample: with a single stored product named "abc", the query
name="a.c" returns that product although "a.c" is not a literal substring of
"abc": the `$regex` filter of line 117 treats `.` as a wildcard, so the claim
that the name parameter is a literal substring filter is false. -/
theorem C8_counterexample_regex_dot :
    list_products s8 (some "a.c") none 10 0 = [prodABC] ∧
    litSubstr "a.c".data prodABC.name.data = false := ⟨rfl, rfl⟩

/-- C8 amended: the name parameter is a case-insensitive regular-expression
filter rather than a literal substring filter; restricted to patterns free of
every PCRE metacharacter (none of `.` `*` `+` `?` `[` `]` `(` `)` braces `|`
`^` `$` backslash) — the regime where the engine matches the pattern purely
literally — it coincides with case-insensitive literal substring containment:
with the page covering the whole store, the returned products are exactly the
stored ones whose name contains the pattern. -/
theorem C8_amended_name_filter {s : AppState} {pat : String} (d : ProductDoc)
    (hmeta : ∀ c ∈ pat.data, isRegexMeta c = false) :
    d ∈ list_products s (some pat) none s.products.length 0 ↔
      d ∈ s.products ∧ litSubstr pat.data d.name.data = true := by
  have hdot : '.' ∉ pat.data := fun hm => absurd (hmeta '.' hm) (by decide)
  unfold list_products
  rw [List.drop_zero]
  have hle : ((s.products.filter (productQuery (some pat) none)).insertionSort
      pidLE).length ≤ s.products.length := by
    rw [List.length_insertionSort]
    exact List.length_filter_le _ _
  rw [List.take_of_length_le hle, List.mem_insertionSort, List.mem_filter]
  have hq : ∀ dX : ProductDoc, productQuery (some pat) none dX
      = ((pat == "") || litSubstr pat.data dX.name.data) := by
    intro dX
    simp only [productQuery, nameMatch, truthy, Option.getD_some]
    rw [regexFind_eq_litSubstr hdot]
    simp
  constructor
  · rintro ⟨hmem, hql⟩
    rw [hq d] at hql
    refine ⟨hmem, ?_⟩
    cases hpe : (pat == "") with
    | true =>
      have : pat = "" := eq_of_beq hpe
      subst this
      exact litSubstr_nil d.name.data
    | false =>
      rw [hpe, Bool.false_or] at hql
      exact hql
  · rintro ⟨hmem, hsub⟩
    refine ⟨hmem, ?_⟩
    rw [hq d, hsub, Bool.or_true]

theorem create_order_sEx_oEx :
    (create_order sEx oEx).1 = Except.ok (newOrderDoc sEx oEx.to_lowercase [pidA, pidB]) := by
  rw [create_order_parsed
      ((by decide) : objectIdList? oEx.to_lowercase.items = some [pidA, pidB]),
    create_order_priced_ok (by decide)]

/-- C1 witness: the spec's concrete example.  P1 costs 10.0 and P2 costs 2.5;
the order [{P1, qty 2}, {P2, qty 4}] satisfies every hypothesis, create_order
succeeds with the spec-side total, and that total is 30. -/
theorem C1_witness :
    (∀ d ∈ sEx.products, objectId? d.id = some d.id) ∧
    (sEx.products.map (fun d => d.id)).Nodup ∧
    (∀ it ∈ oEx.items, ∃ dd ∈ sEx.products, dd.id = lowerStr it.product_id) ∧
    (oEx.items.map (fun it => lowerStr it.product_id)).Nodup ∧
    (∃ d st, create_order sEx oEx = (Except.ok d, st) ∧
      d.total = spec_total sEx.products oEx.items) ∧
    spec_total sEx.products oEx.items = 30 := by
  refine ⟨by decide, by decide, by decide, by decide,
    C1_valid_order_total (by decide) (by decide) (by decide) (by decide), ?_⟩
  have hlowA : lowerStr pidA = pidA := by decide
  have hlowB : lowerStr pidB = pidB := by decide
  have hne : (pidA == pidB) = false := by decide
  simp [spec_total, sEx, oEx, prodP1, prodP2, hlowA, hlowB, hne, List.find?]
  norm_num

/-- C3 witness: the amended characterization applied to the duplicate-item
fixture, whose product ids all parse and whose store has unique ids. -/
theorem C3_witness :
    (sEx.products.map (fun d => d.id)).Nodup ∧
    (∀ it ∈ oDup.items, (objectId? (lowerStr it.product_id)).isSome = true) ∧
    ((create_order sEx oDup).1 =
        Except.error (CreateOrderError.http 400 "One or more products not found")
      ↔ ((∃ it ∈ oDup.items, ∀ dd ∈ sEx.products, dd.id ≠ lowerStr it.product_id)
          ∨ ¬ (oDup.items.map (fun it => lowerStr it.product_id)).Nodup)) :=
  ⟨by decide, by decide, C3_amended_400_characterization (by decide) (by decide)⟩

/-- C6 witness: creating the fixture order with user id "Alice" and listing
with the casing variant "aLICE" returns the created document. -/
theorem C6_witness :
    (create_order sEx oEx).1 = Except.ok (newOrderDoc sEx oEx.to_lowercase [pidA, pidB]) ∧
    lowerStr "aLICE" = lowerStr oEx.user_id ∧
    newOrderDoc sEx oEx.to_lowercase [pidA, pidB] ∈
      list_orders (create_order sEx oEx).2 "aLICE" (create_order sEx oEx).2.orders.length 0 :=
  ⟨create_order_sEx_oEx, by decide,
    C6_user_matching_case_insensitive create_order_sEx_oEx (by decide)⟩

/-- C7 witness: the fifteen-product fixture store with no filters. -/
theorem C7_witness :
    (s15.products.map (fun d => d.id)).Nodup ∧
    (s15.products.filter (productQuery none none)).length = 15 ∧
    ((∀ limit offset,
      (list_products s15 none none limit offset).length ≤ limit ∧
      List.Sorted pidLE (list_products s15 none none limit offset) ∧
      (list_products s15 none none limit offset).inter
        (list_products s15 none none limit (offset + limit)) = []) ∧
    ((s15.products.filter (productQuery none none)).length = 15 →
      (list_products s15 none none 10 10).length = 5 ∧
      list_products s15 none none 10 10 =
        ((s15.products.filter (productQuery none none)).insertionSort pidLE).drop 10 ∧
      (list_products s15 none none 10 0).inter (list_products s15 none none 10 10) = [])) :=
  ⟨by decide, by decide, C7_products_pagination s15 none none (by decide)⟩

/-- C8 witness: the metacharacter-free pattern "b" against the fixture
store. -/
theorem C8_witness :
    (∀ c ∈ "b".data, isRegexMeta c = false) ∧
    (prodABC ∈ list_products s8 (some "b") none s8.products.length 0 ↔
      prodABC ∈ s8.products ∧ litSubstr "b".data prodABC.name.data = true) :=
  ⟨by decide, C8_amended_name_filter prodABC (by decide)⟩

/-- C9 witness: the fixture order; the response document is exactly the
persisted one. -/
theorem C9_witness :
    (create_order sEx oEx).1 = Except.ok (newOrderDoc sEx oEx.to_lowercase [pidA, pidB]) ∧
    ((create_order sEx oEx).2.orders
        = sEx.orders ++ [newOrderDoc sEx oEx.to_lowercase [pidA, pidB]] ∧
      (newOrderDoc sEx oEx.to_lowercase [pidA, pidB]).id = freshOid sEx.nextOid ∧
      (newOrderDoc sEx oEx.to_lowercase [pidA, pidB]).user_id = lowerStr oEx.user_id ∧
      (newOrderDoc sEx oEx.to_lowercase [pidA, pidB]).items = oEx.to_lowercase.items) :=
  ⟨create_order_sEx_oEx, C9_response_is_persisted_doc create_order_sEx_oEx⟩

end HROne
